import Mathlib

/-!
Shallow embedding of the RSS-to-Discord bot (`rss_discord_bot.py`) and of the
URL-shortener service (`url_shortener.py`).

Python strings are modelled as `List Char` (Python strings are sequences of
code points), with `String` wrappers at the interface.  The dedup set is
modelled as a list of identifiers with membership queries.  Network effects
(webhook posts, the shortening RPC) are modelled as explicit oracles whose
result type distinguishes a returned value from a raised exception
(`Except`).
-/

namespace Py

/-- Python `str.strip()`: drop whitespace from both ends. -/
def pyStrip (s : List Char) : List Char :=
  ((s.dropWhile Char.isWhitespace).reverse.dropWhile Char.isWhitespace).reverse

/-- Python `s.split(sep)` for a one-character separator `sep`. -/
def splitChar (sep : Char) : List Char → List (List Char)
  | [] => [[]]
  | c :: rest =>
    match splitChar sep rest with
    | [] => [[c]]
    | h :: t => if c = sep then [] :: h :: t else (c :: h) :: t

/-- Python `s.split("\n\n")`: leftmost, non-overlapping occurrences of the
two-newline separator. -/
def splitNN : List Char → List (List Char)
  | [] => [[]]
  | '\n' :: '\n' :: rest => [] :: splitNN rest
  | c :: rest =>
    match splitNN rest with
    | [] => [[c]]
    | h :: t => (c :: h) :: t

/-- Python `str.lower()` (restricted to the case folding `Char.toLower`
performs, which covers every input used here). -/
def pyLower (s : List Char) : List Char := s.map Char.toLower

/-- Python `needle in hay` for strings: contiguous-substring test. -/
def containsSub (hay needle : List Char) : Bool :=
  match hay, needle with
  | _, [] => true
  | [], _ => false
  | _ :: t, needle => needle.isPrefixOf hay || containsSub t needle

/-! Step lemmas reducing the literal-pattern matches of the split functions
one symbolic-tail step at a time. -/

theorem splitNN_cons_x (rest : List Char) :
    splitNN ('x' :: rest) =
      match splitNN rest with | [] => [['x']] | h :: t => ('x' :: h) :: t := rfl

theorem splitNN_cons_a (rest : List Char) :
    splitNN ('a' :: rest) =
      match splitNN rest with | [] => [['a']] | h :: t => ('a' :: h) :: t := rfl

theorem splitNN_cons_b (rest : List Char) :
    splitNN ('b' :: rest) =
      match splitNN rest with | [] => [['b']] | h :: t => ('b' :: h) :: t := rfl

theorem splitNN_replicate_x (n : Nat) :
    splitNN (List.replicate n 'x') = [List.replicate n 'x'] := by
  induction n with
  | zero => rfl
  | succ n ih => rw [List.replicate_succ, splitNN_cons_x, ih]

theorem splitNN_replicate_b (n : Nat) :
    splitNN (List.replicate n 'b') = [List.replicate n 'b'] := by
  induction n with
  | zero => rfl
  | succ n ih => rw [List.replicate_succ, splitNN_cons_b, ih]

theorem splitNN_overlong (n : Nat) :
    splitNN ('a' :: '\n' :: List.replicate (n + 1) 'x') =
      ['a' :: '\n' :: List.replicate (n + 1) 'x'] := by
  have h1 : splitNN ('\n' :: 'x' :: List.replicate n 'x') =
      match splitNN ('x' :: List.replicate n 'x') with
      | [] => [['\n']] | h :: t => ('\n' :: h) :: t := rfl
  have h2 : splitNN ('a' :: '\n' :: 'x' :: List.replicate n 'x') =
      match splitNN ('\n' :: 'x' :: List.replicate n 'x') with
      | [] => [['a']] | h :: t => ('a' :: h) :: t := rfl
  have h3 := splitNN_replicate_x (n + 1)
  rw [List.replicate_succ] at h3 ⊢
  rw [h2, h1, h3]

/-- Two paragraphs of `'a'`s and `'b'`s joined by a blank line split apart. -/
theorem splitNN_two_paragraphs (m n : Nat) :
    splitNN (List.replicate m 'a' ++ '\n' :: '\n' :: List.replicate n 'b') =
      [List.replicate m 'a', List.replicate n 'b'] := by
  induction m with
  | zero =>
    simp only [List.replicate_zero, List.nil_append]
    show [] :: splitNN (List.replicate n 'b') = _
    rw [splitNN_replicate_b]
  | succ m ih =>
    rw [List.replicate_succ, List.cons_append, splitNN_cons_a, ih]

theorem splitChar_cons_ne (c : Char) (sep : Char) (rest : List Char) (h : ¬ c = sep) :
    splitChar sep (c :: rest) =
      match splitChar sep rest with | [] => [[c]] | h :: t => (c :: h) :: t := by
  show (match splitChar sep rest with
        | [] => [[c]]
        | hh :: t => if c = sep then [] :: hh :: t else (c :: hh) :: t) = _
  cases splitChar sep rest with
  | nil => rfl
  | cons hh t => simp [h]

theorem splitChar_replicate_x (n : Nat) :
    splitChar '\n' (List.replicate n 'x') = [List.replicate n 'x'] := by
  induction n with
  | zero => rfl
  | succ n ih =>
    rw [List.replicate_succ, splitChar_cons_ne _ _ _ (by decide), ih]

/-- Splitting `"a\n" ++ n+1 copies of 'x'` on single newlines yields the two
lines. -/
theorem splitChar_lines (n : Nat) :
    splitChar '\n' ('a' :: '\n' :: List.replicate (n + 1) 'x') =
      [['a'], List.replicate (n + 1) 'x'] := by
  have h1 : splitChar '\n' ('\n' :: List.replicate (n + 1) 'x') =
      match splitChar '\n' (List.replicate (n + 1) 'x') with
      | [] => [['\n']]
      | h :: t => [] :: h :: t := by
    show (match splitChar '\n' (List.replicate (n + 1) 'x') with
          | [] => [['\n']]
          | hh :: t => if '\n' = '\n' then [] :: hh :: t else ('\n' :: hh) :: t) = _
    cases splitChar '\n' (List.replicate (n + 1) 'x') with
    | nil => rfl
    | cons hh t => simp
  rw [splitChar_cons_ne _ _ _ (by decide), h1, splitChar_replicate_x]

/-- `pyStrip` of an all-`'x'` line followed by its trailing newline removes
exactly the newline. -/
theorem pyStrip_x_newline (n : Nat) :
    pyStrip (List.replicate (n + 1) 'x' ++ ['\n']) = List.replicate (n + 1) 'x' := by
  unfold pyStrip
  have hdrop : ∀ m : Nat, (List.replicate m 'x').dropWhile Char.isWhitespace =
      List.replicate m 'x' := by
    intro m
    cases m with
    | zero => rfl
    | succ k => rw [List.replicate_succ]; rw [List.dropWhile_cons_of_neg (by decide)]
  rw [List.replicate_succ, List.cons_append, List.dropWhile_cons_of_neg (by decide)]
  rw [← List.cons_append, ← List.replicate_succ]
  rw [List.reverse_append, List.reverse_replicate]
  show (('\n' :: List.replicate (n + 1) 'x').dropWhile Char.isWhitespace).reverse = _
  rw [List.dropWhile_cons_of_pos (by decide), hdrop, List.reverse_replicate]

/-- `pyStrip` fixes a non-empty run of a non-whitespace character. -/
theorem pyStrip_replicate (n : Nat) (c : Char) (hc : ¬ c.isWhitespace) :
    pyStrip (List.replicate n c) = List.replicate n c := by
  unfold pyStrip
  have hdrop : (List.replicate n c).dropWhile Char.isWhitespace =
      List.replicate n c := by
    cases n with
    | zero => rfl
    | succ k => rw [List.replicate_succ]; rw [List.dropWhile_cons_of_neg (by simpa using hc)]
  rw [hdrop, List.reverse_replicate, hdrop, List.reverse_replicate]

theorem pyStrip_a_newline : pyStrip ['a', '\n'] = ['a'] := by decide

end Py

namespace Bot

/-- The body of the inner per-line loop of `_split_message` (lines of an
over-long paragraph are accumulated into `temp_content`; a line that does not
fit closes the accumulated chunk, or is hard-truncated when the accumulator is
empty). -/
def split_message_lineStep :
    List (List Char) × List Char → List Char → List (List Char) × List Char
  | (messages, temp_content), line =>
    if 2000 < (temp_content ++ line ++ ['\n']).length then
      if temp_content ≠ [] then
        (messages ++ [Py.pyStrip temp_content], line ++ ['\n'])
      else
        (messages ++ [line.take 1997 ++ ['.', '.', '.']], temp_content)
    else
      (messages, temp_content ++ line ++ ['\n'])

/-- The body of the per-paragraph loop of `_split_message`: a paragraph over
the limit is re-split on single newlines (the residue of that inner loop
becomes the new accumulating chunk); otherwise the paragraph is appended to
the accumulating chunk unless that would exceed the limit. -/
def split_message_paraStep :
    List (List Char) × List Char → List Char → List (List Char) × List Char
  | (messages, current_message), paragraph =>
    if 2000 < paragraph.length then
      let messages1 :=
        if current_message ≠ [] then messages ++ [Py.pyStrip current_message]
        else messages
      (Py.splitChar '\n' paragraph).foldl split_message_lineStep (messages1, [])
    else
      let test_message :=
        current_message ++
          (if current_message ≠ [] then ['\n', '\n'] else []) ++ paragraph
      if 2000 < test_message.length then
        ((if current_message ≠ [] then messages ++ [Py.pyStrip current_message]
          else messages), paragraph)
      else
        (messages, test_message)

/-- The tail of `_split_message`: the final partially filled chunk, if any,
is stripped and emitted. -/
def split_message_finish : List (List Char) × List Char → List (List Char)
  | (messages, current_message) =>
    if current_message ≠ [] then messages ++ [Py.pyStrip current_message]
    else messages

/-- `RSSDiscordBot._split_message` on code-point lists: short content is
returned whole, otherwise the content is split on blank lines and
re-accumulated under the 2000-character limit. -/
def split_message_core (content : List Char) : List (List Char) :=
  if content.length ≤ 2000 then [content]
  else
    split_message_finish
      ((Py.splitNN content).foldl split_message_paraStep ([], []))

/-- `RSSDiscordBot._split_message`. -/
def split_message (content : String) : List String :=
  (split_message_core content.toList).map String.mk

/-- Input exhibiting the over-long-chunk defect of `_split_message`: a short
line followed by a single 2001-character line inside one over-long
paragraph. -/
def overlongLineContent : String :=
  String.mk ('a' :: '\n' :: List.replicate 2001 'x')

example : split_message "hello" = ["hello"] := by decide

/-! Reduction lemmas for the two loop bodies. -/

theorem lineStep_long (messages : List (List Char)) (temp : List Char)
    (line : List Char) (hlong : 2000 < (temp ++ line ++ ['\n']).length)
    (hne : temp ≠ []) :
    split_message_lineStep (messages, temp) line =
      (messages ++ [Py.pyStrip temp], line ++ ['\n']) := by
  simp only [split_message_lineStep, if_pos hlong, if_pos hne]

theorem lineStep_fits (messages : List (List Char)) (temp : List Char)
    (line : List Char) (h : ¬ 2000 < (temp ++ line ++ ['\n']).length) :
    split_message_lineStep (messages, temp) line =
      (messages, temp ++ line ++ ['\n']) := by
  simp only [split_message_lineStep, if_neg h]

theorem paraStep_longPara_nil (messages : List (List Char))
    (paragraph : List Char) (h : 2000 < paragraph.length) :
    split_message_paraStep (messages, []) paragraph =
      (Py.splitChar '\n' paragraph).foldl split_message_lineStep
        (messages, []) := by
  simp only [split_message_paraStep, if_pos h]
  rfl

theorem paraStep_fits (messages : List (List Char)) (cur : List Char)
    (paragraph : List Char) (h1 : ¬ 2000 < paragraph.length)
    (h2 : ¬ 2000 <
      (cur ++ (if cur ≠ [] then ['\n', '\n'] else []) ++ paragraph).length) :
    split_message_paraStep (messages, cur) paragraph =
      (messages, cur ++ (if cur ≠ [] then ['\n', '\n'] else []) ++ paragraph) := by
  simp only [split_message_paraStep, if_neg h1, if_neg h2]

theorem paraStep_overflow (messages : List (List Char)) (cur : List Char)
    (paragraph : List Char) (h1 : ¬ 2000 < paragraph.length)
    (h2 : 2000 <
      (cur ++ (if cur ≠ [] then ['\n', '\n'] else []) ++ paragraph).length) :
    split_message_paraStep (messages, cur) paragraph =
      ((if cur ≠ [] then messages ++ [Py.pyStrip cur] else messages),
        paragraph) := by
  simp only [split_message_paraStep, if_neg h1, if_pos h2]

/-- Evaluation of `_split_message` on the defect input: the carried-over
2001-character line is emitted as a chunk unchanged. -/
theorem split_message_core_overlong :
    split_message_core ('a' :: '\n' :: List.replicate 2001 'x') =
      [['a'], List.replicate 2001 'x'] := by
  have hlen : ('a' :: '\n' :: List.replicate 2001 'x').length = 2003 := by
    simp only [List.length_cons, List.length_replicate]
  have hnn := Py.splitNN_overlong 2000
  norm_num at hnn
  unfold split_message_core
  rw [if_neg (by rw [hlen]; omega)]
  rw [hnn, List.foldl_cons, List.foldl_nil]
  rw [paraStep_longPara_nil _ _ (by rw [hlen]; omega)]
  have hsc := Py.splitChar_lines 2000
  norm_num at hsc
  rw [hsc, List.foldl_cons]
  have step1 : split_message_lineStep ([], []) ['a'] = ([], ['a', '\n']) := by
    decide
  rw [step1, List.foldl_cons, List.foldl_nil]
  have step2 : split_message_lineStep ([], ['a', '\n']) (List.replicate 2001 'x') =
      ([Py.pyStrip ['a', '\n']], List.replicate 2001 'x' ++ ['\n']) := by
    apply lineStep_long
    · simp only [List.length_append, List.length_cons, List.length_replicate,
        List.length_nil]
      omega
    · decide
  rw [step2, Py.pyStrip_a_newline]
  have hne2 : (List.replicate 2001 'x' ++ ['\n'] : List Char) ≠ [] := by
    intro h
    exact List.cons_ne_nil '\n' [] (List.append_eq_nil.mp h).2
  have hps := Py.pyStrip_x_newline 2000
  norm_num at hps
  simp only [split_message_finish, hne2, ne_eq, not_false_eq_true, if_pos, hps]
  rfl

/-- C1: the claim fails on the code, which is a slip against the function's
evident purpose (staying within the 2000-character limit that the rest of the
function enforces by truncation).  When an over-long paragraph is split into
lines and an over-long line is reached while the line accumulator is
non-empty, the line is carried over verbatim (`temp_content = line + '\n'`)
without truncation and later emitted as a chunk longer than 2000 characters:
on `"a\n" ++ 2001 × "x"` the chunk lengths are `[1, 2001]`. -/
theorem split_message_overlong_chunk :
    (split_message overlongLineContent).map String.length = [1, 2001] ∧
      ¬ ∀ m ∈ split_message overlongLineContent, m.length ≤ 2000 := by
  have hsm : split_message overlongLineContent =
      (split_message_core ('a' :: '\n' :: List.replicate 2001 'x')).map
        String.mk := rfl
  have h1 : (split_message overlongLineContent).map String.length = [1, 2001] := by
    rw [hsm, split_message_core_overlong]
    show [(['a'] : List Char).length, (List.replicate 2001 'x').length] = [1, 2001]
    rw [List.length_replicate]
    rfl
  refine ⟨h1, ?_⟩
  intro hall
  have hmem : (2001 : Nat) ∈ (split_message overlongLineContent).map String.length := by
    rw [h1]
    simp
  obtain ⟨m, hm, hlenm⟩ := List.mem_map.mp hmem
  have := hall m hm
  omega

end Bot

namespace Shortener

/-- The in-memory state of `URLShortener`: forward map `code ↦ long_url`
(`url_mappings`) and its reverse `long_url ↦ code` (`reverse_mappings`),
both persisted wholesale on every mutation (persistence failures do not roll
back the in-memory maps, so the state here is the in-memory one). -/
structure URLShortener where
  url_mappings : List (String × String)
  reverse_mappings : List (String × String)
deriving DecidableEq, Repr

/-- `URLShortener.get_long_url`. -/
def get_long_url (s : URLShortener) (short_code : String) : Option String :=
  s.url_mappings.lookup short_code

/-- `URLShortener.shorten_url`.  `gen` stands for `generate_short_code`,
whose retry loop returns a code not present in `url_mappings`; it is passed
as an oracle together with that freshness fact where needed. -/
def shorten_url (gen : List (String × String) → String) (s : URLShortener)
    (long_url : String) : String × URLShortener :=
  match s.reverse_mappings.lookup long_url with
  | some code => (code, s)
  | none =>
    let short_code := gen s.url_mappings
    (short_code,
      ⟨(short_code, long_url) :: s.url_mappings,
       (long_url, short_code) :: s.reverse_mappings⟩)

/-- The load-time invariant of the two maps (`reverse_mappings` is built as
`{v: k for k, v in url_mappings.items()}`, and `shorten_url` inserts the two
directions together): every reverse entry is backed by a forward entry. -/
def Consistent (s : URLShortener) : Prop :=
  ∀ u c, s.reverse_mappings.lookup u = some c →
    s.url_mappings.lookup c = some u

/-- C2: `shorten_url` is idempotent and `get_long_url` inverts it.  Under the
map consistency invariant and the freshness guarantee of
`generate_short_code`, calling `shorten_url` twice on the same URL returns
the same code both times (the second call leaves the state unchanged), and
resolving the returned code yields the original URL. -/
theorem shorten_url_idempotent_resolves (gen : List (String × String) → String)
    (s : URLShortener) (u : String) (hcons : Consistent s) :
    (shorten_url gen (shorten_url gen s u).2 u).1 = (shorten_url gen s u).1 ∧
      (shorten_url gen (shorten_url gen s u).2 u).2 = (shorten_url gen s u).2 ∧
      get_long_url (shorten_url gen s u).2 (shorten_url gen s u).1 = some u := by
  unfold shorten_url get_long_url
  cases hrev : s.reverse_mappings.lookup u with
  | some code =>
    simp only [hrev]
    exact ⟨by trivial, by trivial, hcons u code hrev⟩
  | none =>
    simp only [hrev]
    have hlook2 : ((u, gen s.url_mappings) :: s.reverse_mappings).lookup u =
        some (gen s.url_mappings) := by
      simp [List.lookup]
    simp only [hlook2]
    refine ⟨by trivial, by trivial, ?_⟩
    simp [List.lookup]

/-- Witness for C2 at a concrete state: the empty shortener with a generator
returning `"abcd"`. -/
theorem shorten_url_idempotent_resolves_witness :
    (shorten_url (fun _ => "abcd") (shorten_url (fun _ => "abcd") ⟨[], []⟩ "http://example.com/long").2
        "http://example.com/long").1 =
      (shorten_url (fun _ => "abcd") ⟨[], []⟩ "http://example.com/long").1 ∧
      (shorten_url (fun _ => "abcd") (shorten_url (fun _ => "abcd") ⟨[], []⟩ "http://example.com/long").2
          "http://example.com/long").2 =
        (shorten_url (fun _ => "abcd") ⟨[], []⟩ "http://example.com/long").2 ∧
      get_long_url (shorten_url (fun _ => "abcd") ⟨[], []⟩ "http://example.com/long").2
          (shorten_url (fun _ => "abcd") ⟨[], []⟩ "http://example.com/long").1 =
        some "http://example.com/long" :=
  shorten_url_idempotent_resolves (fun _ => "abcd") ⟨[], []⟩
    "http://example.com/long" (fun u c h => by simp [List.lookup] at h)

end Shortener

namespace Bot

/-- UTF-8 encoding of one code point (Python `str.encode('utf-8')`,
per character). -/
def utf8Encode (c : Char) : List Nat :=
  let n := c.toNat
  if n < 128 then [n]
  else if n < 2048 then [192 + n / 64, 128 + n % 64]
  else if n < 65536 then [224 + n / 4096, 128 + n / 64 % 64, 128 + n % 64]
  else [240 + n / 262144, 128 + n / 4096 % 64, 128 + n / 64 % 64, 128 + n % 64]

/-- The base64 alphabet (Python `base64.b64encode`). -/
def base64Chars : List Char :=
  "ABCDEFGHIJKLMNOPQRSTUVWXYZabcdefghijklmnopqrstuvwxyz0123456789+/".toList

/-- One base64 digit. -/
def b64Digit (i : Nat) : Char := base64Chars.getD i 'A'

/-- Standard base64 of a byte list, with `=` padding
(Python `base64.b64encode`). -/
def b64Encode : List Nat → List Char
  | [] => []
  | [b1] => [b64Digit (b1 / 4), b64Digit (b1 % 4 * 16), '=', '=']
  | [b1, b2] =>
    [b64Digit (b1 / 4), b64Digit (b1 % 4 * 16 + b2 / 16),
     b64Digit (b2 % 16 * 4), '=']
  | b1 :: b2 :: b3 :: rest =>
    b64Digit (b1 / 4) :: b64Digit (b1 % 4 * 16 + b2 / 16) ::
      b64Digit (b2 % 16 * 4 + b3 / 64) :: b64Digit (b3 % 64) :: b64Encode rest

/-- One RSS entry as consumed by `process_new_items` (fields read with
`item.get(..., '')` defaults). -/
structure Item where
  title : String
  link : String
  summary : String
  description : String
deriving DecidableEq, Repr

/-- `RSSDiscordBot._generate_item_id`: base64 of the UTF-8 bytes of the
link, or of the title when the link is empty. -/
def generate_item_id (item : Item) : String :=
  let link := if item.link = "" then item.title else item.link
  String.mk (b64Encode (link.toList.flatMap utf8Encode))

/-- `RSSDiscordBot._should_filter_item`: true when some configured keyword
occurs (case-insensitively) in `"title summary description"`. -/
def should_filter_item (filter_keywords : List String) (item : Item) : Bool :=
  if filter_keywords = [] then false
  else
    let content_to_check :=
      Py.pyLower item.title.toList ++ [' '] ++ Py.pyLower item.summary.toList
        ++ [' '] ++ Py.pyLower item.description.toList
    filter_keywords.any fun keyword =>
      Py.containsSub content_to_check (Py.pyLower keyword.toList)

/-- What `process_new_items` did with one entry. -/
inductive ItemTrace where
  /-- identifier already in the dedup set: skipped. -/
  | skippedSeen : ItemTrace
  /-- matched a filter keyword: recorded as seen, never delivered. -/
  | filtered : ItemTrace
  /-- delivered after `attempts` send attempts with `delays` (seconds)
  slept between attempts. -/
  | delivered (attempts : Nat) (delays : List Nat) : ItemTrace
  /-- all attempts failed; `delays` slept between them. -/
  | failed (attempts : Nat) (delays : List Nat) : ItemTrace
deriving DecidableEq, Repr

/-- `ItemTrace.delivered`ness, used to relate the saved flag to traces. -/
def ItemTrace.isDelivered : ItemTrace → Bool
  | .delivered _ _ => true
  | _ => false

/-- The retry loop of `process_new_items` (`for attempt in
range(max_retries)` with `time.sleep(2 ** attempt)` between failed
attempts).  `send1 a` is the outcome of `send_to_discord` on attempt `a`;
`fuel` is the number of remaining iterations (`max_retries - attempt`).
Returns (number of attempts made, delays slept, success). -/
def retryGo (send1 : Nat → Bool) : Nat → Nat → Nat × List Nat × Bool
  | _, 0 => (0, [], false)
  | attempt, fuel + 1 =>
    if send1 attempt then (1, [], true)
    else if fuel = 0 then (1, [], false)
    else
      let r := retryGo send1 (attempt + 1) fuel
      (r.1 + 1, 2 ^ attempt :: r.2.1, r.2.2)

/-- Python `set.add` on the list model of `sent_items`. -/
def setAdd (sent : List String) (x : String) : List String :=
  if x ∈ sent then sent else sent ++ [x]

/-- The per-entry body of `process_new_items`: dedup check, filter check
(recording filtered entries as seen), then delivery with retry, recording
the identifier only on success.  Returns (new dedup set, contribution to
`new_items_count`, trace). -/
def processItem (send1 : Nat → Bool) (max_retries : Nat)
    (filter_keywords : List String) (sent : List String) (item : Item) :
    List String × Nat × ItemTrace :=
  let item_id := generate_item_id item
  if item_id ∈ sent then (sent, 0, .skippedSeen)
  else if should_filter_item filter_keywords item then
    (setAdd sent item_id, 0, .filtered)
  else
    let r := retryGo send1 0 max_retries
    if r.2.2 then (setAdd sent item_id, 1, .delivered r.1 r.2.1)
    else (sent, 0, .failed r.1 r.2.1)

/-- The entry loop of `process_new_items`; `send i a` is the outcome of the
`a`-th send attempt for the `i`-th entry. -/
def processItemsGo (send : Nat → Nat → Bool) (max_retries : Nat)
    (filter_keywords : List String) :
    Nat → List String → List Item → List String × Nat × List ItemTrace
  | _, sent, [] => (sent, 0, [])
  | i, sent, item :: rest =>
    let r1 := processItem (send i) max_retries filter_keywords sent item
    let r2 := processItemsGo send max_retries filter_keywords (i + 1) r1.1 rest
    (r2.1, r1.2.1 + r2.2.1, r1.2.2 :: r2.2.2)

/-- Result of one polling cycle of `process_new_items`. -/
structure CycleResult where
  sent_items : List String
  new_items_count : Nat
  traces : List ItemTrace
  /-- whether `_save_sent_items` was called at the end of the cycle
  (`if new_items_count > 0`). -/
  saved : Bool
deriving DecidableEq, Repr

/-- `RSSDiscordBot.process_new_items`. -/
def process_new_items (send : Nat → Nat → Bool) (max_retries : Nat)
    (filter_keywords : List String) (sent : List String) (items : List Item) :
    CycleResult :=
  let r := processItemsGo send max_retries filter_keywords 0 sent items
  ⟨r.1, r.2.1, r.2.2, decide (0 < r.2.1)⟩

end Bot

namespace Bot

theorem mem_setAdd_self (sent : List String) (x : String) : x ∈ setAdd sent x := by
  unfold setAdd
  by_cases h : x ∈ sent
  · simp only [if_pos h]
    exact h
  · simp [h]

theorem setAdd_not_mem (sent : List String) (x : String) (h : x ∉ sent) :
    setAdd sent x = sent ++ [x] := by
  simp [setAdd, h]

/-- C3: confirmed.  With `max_retries = 3`, a delivery failing on attempts 0
and 1 and succeeding on attempt 2 makes exactly 3 send attempts with
inter-attempt delays `[2^0, 2^1] = [1, 2]` seconds, and the entry identifier
is then recorded in the dedup set. -/
theorem retry_backoff_two_failures_then_success (send1 : Nat → Bool)
    (filter_keywords : List String) (sent : List String) (item : Item)
    (h0 : send1 0 = false) (h1 : send1 1 = false) (h2 : send1 2 = true)
    (hseen : generate_item_id item ∉ sent)
    (hfil : should_filter_item filter_keywords item = false) :
    processItem send1 3 filter_keywords sent item =
      (sent ++ [generate_item_id item], 1, .delivered 3 [1, 2]) ∧
      generate_item_id item ∈ (processItem send1 3 filter_keywords sent item).1 := by
  have hr : retryGo send1 0 3 = (3, [1, 2], true) := by
    simp [retryGo, h0, h1, h2]
  have hmain : processItem send1 3 filter_keywords sent item =
      (sent ++ [generate_item_id item], 1, .delivered 3 [1, 2]) := by
    simp only [processItem, if_neg hseen, hfil, Bool.false_eq_true, if_false, hr,
      setAdd_not_mem sent _ hseen]
    simp
  refine ⟨hmain, ?_⟩
  rw [hmain]
  simp

/-- Witness for C3: a concrete send oracle succeeding only on attempt 2,
an unseen unfiltered item, an empty dedup set. -/
theorem retry_backoff_two_failures_then_success_witness :
    processItem (fun a => a == 2) 3 [] [] ⟨"T", "http://ex.com/2", "", ""⟩ =
      ([generate_item_id ⟨"T", "http://ex.com/2", "", ""⟩], 1,
        .delivered 3 [1, 2]) ∧
      generate_item_id ⟨"T", "http://ex.com/2", "", ""⟩ ∈
        (processItem (fun a => a == 2) 3 [] []
          ⟨"T", "http://ex.com/2", "", ""⟩).1 := by
  have h := retry_backoff_two_failures_then_success (fun a => a == 2) [] []
    ⟨"T", "http://ex.com/2", "", ""⟩ (by decide) (by decide) (by decide)
    (by simp) (by decide)
  simp only [List.nil_append] at h
  exact h

/-- The retry loop fails overall when every attempt in range fails. -/
theorem retryGo_all_fail (send1 : Nat → Bool) :
    ∀ fuel attempt, (∀ a, a < attempt + fuel → send1 a = false) →
      (retryGo send1 attempt fuel).2.2 = false := by
  intro fuel
  induction fuel with
  | zero => intro attempt _; rfl
  | succ n ih =>
    intro attempt h
    have ha : send1 attempt = false := h attempt (by omega)
    by_cases hn : n = 0
    · simp [retryGo, ha, hn]
    · simp only [retryGo, ha, Bool.false_eq_true, if_false, hn, ite_false]
      exact ih (attempt + 1) (fun a hlt => h a (by omega))

/-- C4: confirmed.  When every one of the `max_retries` attempts fails, the
entry identifier is not added to the dedup set (the set is returned
unchanged, and the identifier is still absent), so the same entry is
processed again — and can be delivered — on a later cycle. -/
theorem failed_delivery_not_recorded (send1 : Nat → Bool) (max_retries : Nat)
    (filter_keywords : List String) (sent : List String) (item : Item)
    (hfail : ∀ a, a < max_retries → send1 a = false)
    (hseen : generate_item_id item ∉ sent)
    (hfil : should_filter_item filter_keywords item = false) :
    (processItem send1 max_retries filter_keywords sent item).1 = sent ∧
      generate_item_id item ∉
        (processItem send1 max_retries filter_keywords sent item).1 ∧
      ∀ send2 : Nat → Bool, send2 0 = true → 0 < max_retries →
        (processItem send2 max_retries filter_keywords sent item).2.2 =
          .delivered 1 [] := by
  have hr : (retryGo send1 0 max_retries).2.2 = false :=
    retryGo_all_fail send1 max_retries 0 (by simpa using hfail)
  have hmain : (processItem send1 max_retries filter_keywords sent item).1 = sent := by
    simp only [processItem, if_neg hseen, hfil, Bool.false_eq_true, if_false, hr]
  refine ⟨hmain, by rw [hmain]; exact hseen, ?_⟩
  intro send2 hs2 hpos
  obtain ⟨fuel, rfl⟩ : ∃ fuel, max_retries = fuel + 1 :=
    ⟨max_retries - 1, by omega⟩
  have hr2 : retryGo send2 0 (fuel + 1) = (1, [], true) := by
    simp [retryGo, hs2]
  simp only [processItem, if_neg hseen, hfil, Bool.false_eq_true, if_false, hr2]
  simp

/-- Witness for C4: an always-failing oracle, `max_retries = 3`, an unseen
unfiltered item, an empty dedup set. -/
theorem failed_delivery_not_recorded_witness :
    (processItem (fun _ => false) 3 [] [] ⟨"T", "http://ex.com/2", "", ""⟩).1 = [] ∧
      generate_item_id ⟨"T", "http://ex.com/2", "", ""⟩ ∉
        (processItem (fun _ => false) 3 [] []
          ⟨"T", "http://ex.com/2", "", ""⟩).1 ∧
      ∀ send2 : Nat → Bool, send2 0 = true → 0 < 3 →
        (processItem send2 3 [] [] ⟨"T", "http://ex.com/2", "", ""⟩).2.2 =
          .delivered 1 [] :=
  failed_delivery_not_recorded (fun _ => false) 3 [] []
    ⟨"T", "http://ex.com/2", "", ""⟩ (fun _ _ => rfl) (by simp) (by decide)

/-- C10: confirmed.  An unseen entry matching a filter keyword has its
identifier appended to the in-memory dedup set even though it is never
delivered (`new_items_count` contribution 0, trace `filtered`), and any
later processing of the same entry against the updated set is skipped by the
dedup check without touching the set. -/
theorem filtered_item_marked_seen (send1 : Nat → Bool) (max_retries : Nat)
    (filter_keywords : List String) (sent : List String) (item : Item)
    (hseen : generate_item_id item ∉ sent)
    (hfil : should_filter_item filter_keywords item = true) :
    processItem send1 max_retries filter_keywords sent item =
      (sent ++ [generate_item_id item], 0, .filtered) ∧
      ∀ (send2 : Nat → Bool) (mr2 : Nat),
        processItem send2 mr2 filter_keywords
            (sent ++ [generate_item_id item]) item =
          (sent ++ [generate_item_id item], 0, .skippedSeen) := by
  constructor
  · simp only [processItem, if_neg hseen, hfil, if_true,
      setAdd_not_mem sent _ hseen]
  · intro send2 mr2
    have hmem : generate_item_id item ∈ sent ++ [generate_item_id item] := by
      simp
    simp only [processItem, if_pos hmem]

/-- A concrete entry matching the filter keyword `"spam"`. -/
def spamItem : Item := ⟨"Spam offer", "http://ex.com/1", "", ""⟩

/-- Witness for C10: the concrete `spamItem` against keyword list
`["spam"]`. -/
theorem filtered_item_marked_seen_witness :
    processItem (fun _ => false) 3 ["spam"] [] spamItem =
      ([generate_item_id spamItem], 0, .filtered) ∧
      ∀ (send2 : Nat → Bool) (mr2 : Nat),
        processItem send2 mr2 ["spam"] [generate_item_id spamItem] spamItem =
          ([generate_item_id spamItem], 0, .skippedSeen) := by
  have h := filtered_item_marked_seen (fun _ => false) 3 ["spam"] [] spamItem
    (by simp) (by decide)
  simpa using h

end Bot

namespace Bot

/-- An entry contributes 1 to `new_items_count` exactly when its trace is
`delivered`. -/
theorem processItem_count_eq (send1 : Nat → Bool) (mr : Nat)
    (kw : List String) (sent : List String) (item : Item) :
    (processItem send1 mr kw sent item).2.1 =
      (if ((processItem send1 mr kw sent item).2.2).isDelivered then 1 else 0) := by
  simp only [processItem]
  split
  · rfl
  · split
    · rfl
    · split
      · rfl
      · rfl

/-- `new_items_count` counts exactly the `delivered` traces of the cycle. -/
theorem processItemsGo_count (send : Nat → Nat → Bool) (mr : Nat)
    (kw : List String) :
    ∀ (items : List Item) (i : Nat) (sent : List String),
      (processItemsGo send mr kw i sent items).2.1 =
        ((processItemsGo send mr kw i sent items).2.2).countP
          ItemTrace.isDelivered := by
  intro items
  induction items with
  | nil => intro i sent; rfl
  | cons item rest ih =>
    intro i sent
    simp only [processItemsGo]
    rw [List.countP_cons, ih]
    have hc := processItem_count_eq (send i) mr kw sent item
    by_cases hd : ((processItem (send i) mr kw sent item).2.2).isDelivered
    · simp only [hd, if_true] at hc
      simp only [hd, if_true]
      omega
    · simp only [hd, if_false] at hc
      simp only [hd, if_false]
      omega

/-- C6 (amended): the dedup set is persisted (`_save_sent_items` is called)
after exactly those cycles in which at least one entry was successfully
delivered (`new_items_count > 0`); identifiers added only for filtered
entries do not by themselves trigger a save. -/
theorem saved_iff_some_delivered (send : Nat → Nat → Bool) (mr : Nat)
    (kw : List String) (sent : List String) (items : List Item) :
    (process_new_items send mr kw sent items).saved = true ↔
      ∃ tr ∈ (process_new_items send mr kw sent items).traces,
        tr.isDelivered = true := by
  simp only [process_new_items, decide_eq_true_eq]
  rw [processItemsGo_count]
  rw [List.countP_pos_iff]

/-- C6 counterexample: a cycle whose only entry is filtered adds its
identifier to the in-memory set but is not persisted (`saved = false`),
contradicting the claim that every cycle adding an identifier persists. -/
theorem filtered_only_cycle_not_saved :
    (process_new_items (fun _ _ => false) 3 ["spam"] [] [spamItem]).saved = false ∧
      (process_new_items (fun _ _ => false) 3 ["spam"] [] [spamItem]).sent_items
        ≠ [] := by
  decide

end Bot

namespace Bot

theorem paraStep_fits_nil (messages : List (List Char)) (paragraph : List Char)
    (h : ¬ 2000 < paragraph.length) :
    split_message_paraStep (messages, []) paragraph = (messages, paragraph) := by
  have hred : ([] ++ (if ([] : List Char) ≠ [] then ['\n', '\n'] else []) ++
      paragraph) = paragraph := rfl
  simp only [split_message_paraStep, hred, if_neg h]

/-- Content with two 1500-character paragraphs split into two chunks. -/
theorem split_message_core_two_paragraphs :
    split_message_core
        (List.replicate 1500 'a' ++ '\n' :: '\n' :: List.replicate 1500 'b') =
      [List.replicate 1500 'a', List.replicate 1500 'b'] := by
  have hla : (List.replicate 1500 'a').length = 1500 := List.length_replicate 1500 'a'
  have hlb : (List.replicate 1500 'b').length = 1500 := List.length_replicate 1500 'b'
  have hpa : (List.replicate 1500 'a' : List Char) ≠ [] :=
    List.length_pos.mp (by rw [hla]; omega)
  have hpb : (List.replicate 1500 'b' : List Char) ≠ [] :=
    List.length_pos.mp (by rw [hlb]; omega)
  have hsa := Py.pyStrip_replicate 1500 'a' (by decide)
  have hsb := Py.pyStrip_replicate 1500 'b' (by decide)
  unfold split_message_core
  rw [if_neg (by
    simp only [List.length_append, List.length_cons, hla, hlb]
    omega)]
  rw [Py.splitNN_two_paragraphs, List.foldl_cons]
  rw [paraStep_fits_nil _ _ (by rw [hla]; omega)]
  rw [List.foldl_cons, List.foldl_nil]
  rw [paraStep_overflow _ _ _ (by rw [hlb]; omega)
    (by
      simp only [if_pos hpa, List.length_append, List.length_cons, hla, hlb]
      omega)]
  simp only [if_pos hpa, if_pos hpb, split_message_finish, hsa, hsb]
  rfl

end Bot

namespace Bot

/-- The chunk-sending loop of `send_to_discord`.  `post i` is the outcome of
posting chunk `i` to the webhook: `Except.error` models a raised exception
(caught only by the outermost handler, which returns `False`), `Except.ok c`
a response with status code `c`.  Returns (overall success, number of chunks
attempted). -/
def sendChunksGo (post : Nat → Except Unit Nat) :
    Nat → Bool → List String → Bool × Nat
  | i, all_success, [] => (all_success, i)
  | i, all_success, _ :: rest =>
    match post i with
    | .error _ => (false, i + 1)
    | .ok code =>
      sendChunksGo post (i + 1) (all_success && (code == 204 || code == 200)) rest

/-- `RSSDiscordBot.send_to_discord`: the placeholder-webhook guard, then the
message is split and each chunk posted in order; a non-success status flips
`all_success` but the loop continues, while an exception propagates to the
outer handler which returns `False` immediately. -/
def send_to_discord (webhook_url : String) (post : Nat → Except Unit Nat)
    (content : String) : Bool × Nat :=
  if webhook_url = "YOUR_DISCORD_WEBHOOK_URL_HERE" then (false, 0)
  else sendChunksGo post 0 true (split_message content)

/-- Concrete content splitting into exactly two chunks. -/
def twoParagraphContent : String :=
  String.mk (List.replicate 1500 'a' ++ '\n' :: '\n' :: List.replicate 1500 'b')

end Bot

namespace Bot

/-- When no chunk raises, every chunk is attempted and the loop succeeds iff
the accumulator was true and every status is 204 or 200. -/
theorem sendChunksGo_no_exception (post : Nat → Except Unit Nat) :
    ∀ (parts : List String) (i : Nat) (acc : Bool),
      (∀ k, k < parts.length → ∃ c, post (i + k) = .ok c) →
      (sendChunksGo post i acc parts).2 = i + parts.length ∧
        ((sendChunksGo post i acc parts).1 = true ↔
          (acc = true ∧ ∀ k, k < parts.length →
            ∃ c, post (i + k) = .ok c ∧ (c = 204 ∨ c = 200))) := by
  intro parts
  induction parts with
  | nil =>
    intro i acc _
    refine ⟨by simp [sendChunksGo], ?_⟩
    simp [sendChunksGo]
  | cons p rest ih =>
    intro i acc h
    obtain ⟨c, hc⟩ := h 0 (by simp)
    rw [Nat.add_zero] at hc
    have hrest : ∀ k, k < rest.length → ∃ c2, post (i + 1 + k) = .ok c2 := by
      intro k hk
      have hh := h (k + 1) (by simp only [List.length_cons]; omega)
      rw [show i + (k + 1) = i + 1 + k by omega] at hh
      exact hh
    have hstep : sendChunksGo post i acc (p :: rest) =
        sendChunksGo post (i + 1) (acc && (c == 204 || c == 200)) rest := by
      simp only [sendChunksGo, hc]
    obtain ⟨ih1, ih2⟩ := ih (i + 1) (acc && (c == 204 || c == 200)) hrest
    refine ⟨by rw [hstep, ih1]; simp only [List.length_cons]; omega, ?_⟩
    rw [hstep, ih2]
    constructor
    · rintro ⟨hacc, hall⟩
      have hb : (c == 204 || c == 200) = true := by
        cases acc <;> simp_all
      have hcgood : c = 204 ∨ c = 200 := by simpa using hb
      refine ⟨by cases acc <;> simp_all, ?_⟩
      intro k hk
      cases k with
      | zero => exact ⟨c, by rw [Nat.add_zero]; exact hc, hcgood⟩
      | succ k2 =>
        have hh := hall k2 (by simp only [List.length_cons] at hk; omega)
        rw [show i + 1 + k2 = i + (k2 + 1) by omega] at hh
        exact hh
    · rintro ⟨hacc, hall⟩
      have h0 := hall 0 (by simp)
      rw [Nat.add_zero] at h0
      obtain ⟨c0, hc0, hgood⟩ := h0
      rw [hc] at hc0
      cases hc0
      have hb : (c == 204 || c == 200) = true := by
        rcases hgood with h' | h' <;> simp [h']
      refine ⟨by simp [hacc, hb], ?_⟩
      intro k hk
      have hh := hall (k + 1) (by simp only [List.length_cons]; omega)
      rw [show i + (k + 1) = i + 1 + k by omega] at hh
      exact hh

/-- An exception on chunk `j` (all earlier chunks answering without raising)
makes the loop return `false` after attempting exactly `j + 1` chunks. -/
theorem sendChunksGo_exception (post : Nat → Except Unit Nat) :
    ∀ (parts : List String) (i : Nat) (acc : Bool) (j : Nat),
      j < parts.length → (∀ k, k < j → ∃ c, post (i + k) = .ok c) →
      post (i + j) = .error () →
      sendChunksGo post i acc parts = (false, i + j + 1) := by
  intro parts
  induction parts with
  | nil => intro i acc j hj _ _; simp at hj
  | cons p rest ih =>
    intro i acc j hj hpre herr
    cases j with
    | zero =>
      rw [Nat.add_zero] at herr
      simp only [sendChunksGo, herr]
    | succ j2 =>
      obtain ⟨c, hc⟩ := hpre 0 (by omega)
      rw [Nat.add_zero] at hc
      have hstep : sendChunksGo post i acc (p :: rest) =
          sendChunksGo post (i + 1) (acc && (c == 204 || c == 200)) rest := by
        simp only [sendChunksGo, hc]
      rw [hstep]
      have hpre2 : ∀ k, k < j2 → ∃ c2, post (i + 1 + k) = .ok c2 := by
        intro k hk
        have hh := hpre (k + 1) (by omega)
        rw [show i + (k + 1) = i + 1 + k by omega] at hh
        exact hh
      have herr2 : post (i + 1 + j2) = .error () := by
        rw [show i + 1 + j2 = i + (j2 + 1) by omega]
        exact herr
      have := ih (i + 1) (acc && (c == 204 || c == 200)) j2
        (by simp only [List.length_cons] at hj; omega) hpre2 herr2
      rw [this]
      refine congrArg _ ?_
      omega

/-- C5 counterexample: on content that splits into two chunks, an exception
raised while sending the first chunk makes `send_to_discord` return without
attempting the second chunk (1 of 2 chunks attempted), refuting "every
remaining chunk is still attempted" for raised failures. -/
theorem send_chunk_exception_aborts_rest :
    (split_message twoParagraphContent).length = 2 ∧
      send_to_discord "https://example.com/webhook"
        (fun i => if i = 0 then .error () else .ok 204) twoParagraphContent =
        (false, 1) := by
  have hsplit : split_message twoParagraphContent =
      [String.mk (List.replicate 1500 'a'), String.mk (List.replicate 1500 'b')] := by
    show (split_message_core
        (List.replicate 1500 'a' ++ '\n' :: '\n' :: List.replicate 1500 'b')).map
        String.mk = _
    rw [split_message_core_two_paragraphs]
    rfl
  refine ⟨by rw [hsplit]; rfl, ?_⟩
  unfold send_to_discord
  rw [if_neg (by decide), hsplit]
  rfl

/-- C5 (amended): with a configured (non-placeholder) webhook URL,
(a) when no chunk send raises, every chunk is attempted and
`send_to_discord` returns true iff every chunk's status is 204 or 200 — so a
non-success status on one chunk does not abort the remaining chunks; and
(b) an exception raised while sending chunk `j` aborts the loop: the call
returns false after attempting only chunks `0..j`. -/
theorem send_to_discord_success_and_abort (webhook_url : String)
    (post : Nat → Except Unit Nat) (content : String)
    (hurl : webhook_url ≠ "YOUR_DISCORD_WEBHOOK_URL_HERE") :
    ((∀ k, k < (split_message content).length → ∃ c, post k = .ok c) →
      ((send_to_discord webhook_url post content).2 =
          (split_message content).length ∧
        ((send_to_discord webhook_url post content).1 = true ↔
          ∀ k, k < (split_message content).length →
            ∃ c, post k = .ok c ∧ (c = 204 ∨ c = 200)))) ∧
    (∀ j, j < (split_message content).length →
      (∀ k, k < j → ∃ c, post k = .ok c) → post j = .error () →
      send_to_discord webhook_url post content = (false, j + 1)) := by
  unfold send_to_discord
  rw [if_neg hurl]
  constructor
  · intro h
    have h' : ∀ k, k < (split_message content).length → ∃ c, post (0 + k) = .ok c := by
      intro k hk
      rw [Nat.zero_add]
      exact h k hk
    obtain ⟨h1, h2⟩ := sendChunksGo_no_exception post (split_message content) 0 true h'
    refine ⟨by rw [h1]; omega, ?_⟩
    rw [h2]
    constructor
    · rintro ⟨_, hall⟩
      intro k hk
      have hh := hall k hk
      rw [Nat.zero_add] at hh
      exact hh
    · intro hall
      refine ⟨rfl, ?_⟩
      intro k hk
      rw [Nat.zero_add]
      exact hall k hk
  · intro j hj hpre herr
    have hpre' : ∀ k, k < j → ∃ c, post (0 + k) = .ok c := by
      intro k hk
      rw [Nat.zero_add]
      exact hpre k hk
    have herr' : post (0 + j) = .error () := by rw [Nat.zero_add]; exact herr
    have := sendChunksGo_exception post (split_message content) 0 true j hj hpre' herr'
    rw [this]
    refine congrArg _ ?_
    omega

/-- Witness for C5's amended theorem: a configured URL, an always-204 post
oracle, one-chunk content. -/
theorem send_to_discord_success_and_abort_witness :
    ((∀ k, k < (split_message "hi").length → ∃ c, (fun _ : Nat => (Except.ok 204 : Except Unit Nat)) k = .ok c) →
      ((send_to_discord "https://example.com/webhook" (fun _ => Except.ok 204) "hi").2 =
          (split_message "hi").length ∧
        ((send_to_discord "https://example.com/webhook" (fun _ => Except.ok 204) "hi").1 = true ↔
          ∀ k, k < (split_message "hi").length →
            ∃ c, (fun _ : Nat => (Except.ok 204 : Except Unit Nat)) k = .ok c ∧ (c = 204 ∨ c = 200)))) ∧
    (∀ j, j < (split_message "hi").length →
      (∀ k, k < j → ∃ c, (fun _ : Nat => (Except.ok 204 : Except Unit Nat)) k = .ok c) →
      (fun _ : Nat => (Except.ok 204 : Except Unit Nat)) j = .error () →
      send_to_discord "https://example.com/webhook" (fun _ => Except.ok 204) "hi" = (false, j + 1)) :=
  send_to_discord_success_and_abort "https://example.com/webhook"
    (fun _ => Except.ok 204) "hi" (by decide)

end Bot

namespace Shortener

/-- The result of `json.loads` on a request body as far as `do_POST`
inspects it: a JSON object is read through `data.get('url')` (string-valued
fields suffice for that access), and any non-object value makes the
subsequent `.get` raise. -/
inductive PyJson where
  | obj (fields : List (String × String)) : PyJson
  | nonObj : PyJson
deriving DecidableEq, Repr

/-- `ShortenerHandler.do_POST`, returning the HTTP status code sent.
`body` is the outcome of reading and JSON-decoding the request body
(`Except.error` for a decode failure, which the handler's `except` turns
into a 500); `shorten` is the outcome of `shorten_url` (an exception there
is caught by the same handler). -/
def do_POST (path : String) (body : Except String PyJson)
    (shorten : Except String String) : Nat :=
  if path = "/shorten" then
    match body with
    | .error _ => 500
    | .ok .nonObj => 500
    | .ok (.obj fields) =>
      match fields.lookup "url" with
      | none => 400
      | some long_url =>
        if long_url = "" then 400
        else
          match shorten with
          | .error _ => 500
          | .ok _ => 200
  else 404

/-- C8 counterexample: a request body that is not valid JSON raises in
`json.loads`, is caught by the blanket `except`, and is answered with 500 —
a server error, not the client error (4xx) the claim requires. -/
theorem do_POST_invalid_json_500 :
    do_POST "/shorten" (Except.error "Expecting value: line 1 column 1")
        (Except.ok "abcd") = 500 ∧
      ¬ (do_POST "/shorten" (Except.error "Expecting value: line 1 column 1")
          (Except.ok "abcd") < 500) := by
  decide

/-- C8 (amended): a creation request whose JSON object lacks the `url` field
(or carries an empty one) is answered 400, but a body that is not valid JSON
is answered 500, not a 4xx. -/
theorem do_POST_missing_url_400_invalid_json_500 (fields : List (String × String))
    (e : String) (shorten : Except String String)
    (hmiss : fields.lookup "url" = none) :
    do_POST "/shorten" (Except.ok (PyJson.obj fields)) shorten = 400 ∧
      do_POST "/shorten" (Except.error e) shorten = 500 := by
  constructor
  · simp only [do_POST, hmiss]
    simp
  · rfl

/-- Witness for C8's amended theorem: an empty JSON object and a malformed
body. -/
theorem do_POST_missing_url_400_invalid_json_500_witness :
    do_POST "/shorten" (Except.ok (PyJson.obj [])) (Except.ok "abcd") = 400 ∧
      do_POST "/shorten" (Except.error "bad json") (Except.ok "abcd") = 500 :=
  do_POST_missing_url_400_invalid_json_500 [] "bad json" (Except.ok "abcd") rfl

end Shortener

namespace Bot

/-- The character class `[^\s\)\]\}>]` of the URL pattern in
`_shorten_urls_in_text`. -/
def urlChar (c : Char) : Bool :=
  !(c.isWhitespace || c == ')' || c == ']' || c == '\x7d' || c == '>')

/-- Greedy body of a URL match after its scheme prefix. -/
def urlTail (pre : List Char) (rest : List Char) :
    Option (List Char × List Char) :=
  let body := rest.takeWhile urlChar
  if body = [] then none
  else some (pre ++ body, rest.drop body.length)

/-- Matching the regex `https?://[^\s\)\]\}>]+` at the head of the input:
returns the matched URL and the remaining input. -/
def matchUrlAt : List Char → Option (List Char × List Char)
  | 'h' :: 't' :: 't' :: 'p' :: 's' :: ':' :: '/' :: '/' :: rest =>
    urlTail ['h', 't', 't', 'p', 's', ':', '/', '/'] rest
  | 'h' :: 't' :: 't' :: 'p' :: ':' :: '/' :: '/' :: rest =>
    urlTail ['h', 't', 't', 'p', ':', '/', '/'] rest
  | _ => none

/-- Python `domain.rstrip('/')`. -/
def pyRstripSlash (s : String) : String :=
  String.mk ((s.toList.reverse.dropWhile (· == '/')).reverse)

/-- The `replace_url` closure of `_shorten_urls_in_text`: on success the
match is replaced by `domain.rstrip('/') + '/' + short_code`; an exception
from the shortener leaves the match unchanged. -/
def replace_url (shorten : String → Except String String) (domain : String)
    (m : List Char) : List Char :=
  match shorten (String.mk m) with
  | .ok short_code => (pyRstripSlash domain).toList ++ '/' :: short_code.toList
  | .error _ => m

/-- The left-to-right, non-overlapping scan of `re.sub` for the URL
pattern; `fuel` bounds the recursion (the input length suffices, as every
step consumes at least one character). -/
def subUrlsGo (repl : List Char → List Char) : Nat → List Char → List Char
  | 0, s => s
  | fuel + 1, s =>
    match s with
    | [] => []
    | c :: rest =>
      match matchUrlAt (c :: rest) with
      | some (m, rest2) => repl m ++ subUrlsGo repl fuel rest2
      | none => c :: subUrlsGo repl fuel rest

/-- `RSSDiscordBot._shorten_urls_in_text`: identity when the shortener is
disabled, otherwise every URL match is rewritten through `replace_url`. -/
def shorten_urls_in_text
    (url_shortener : Option (String → Except String String))
    (domain : String) (text : String) : String :=
  match url_shortener with
  | none => text
  | some shorten =>
    String.mk
      (subUrlsGo (replace_url shorten domain) text.toList.length text.toList)

end Bot

namespace Bot

/-- One piece of text as carved up by the `re.sub` scan: either a literal
stretch (here always a single unmatched character, or the tail when fuel
runs out) or one URL match. -/
inductive UrlPiece where
  | lit (s : List Char) : UrlPiece
  | url (m : List Char) : UrlPiece
deriving DecidableEq, Repr

/-- The pure scanning pass of the `re.sub` loop (no replacement applied). -/
def scanUrlPieces : Nat → List Char → List UrlPiece
  | 0, s => if s = [] then [] else [.lit s]
  | fuel + 1, s =>
    match s with
    | [] => []
    | c :: rest =>
      match matchUrlAt (c :: rest) with
      | some (m, rest2) => .url m :: scanUrlPieces fuel rest2
      | none => .lit [c] :: scanUrlPieces fuel rest

/-- Re-assembling pieces, applying the replacement to each URL match. -/
def applyUrlPieces (repl : List Char → List Char) : List UrlPiece → List Char
  | [] => []
  | .lit s :: rest => s ++ applyUrlPieces repl rest
  | .url m :: rest => repl m ++ applyUrlPieces repl rest

/-- The scan-then-replace loop factors through the pure scanning pass. -/
theorem subUrlsGo_eq_apply (repl : List Char → List Char) :
    ∀ (fuel : Nat) (s : List Char),
      subUrlsGo repl fuel s = applyUrlPieces repl (scanUrlPieces fuel s) := by
  intro fuel
  induction fuel with
  | zero =>
    intro s
    cases s with
    | nil => rfl
    | cons c rest =>
      show c :: rest = applyUrlPieces repl [.lit (c :: rest)]
      show c :: rest = (c :: rest) ++ applyUrlPieces repl []
      rw [show applyUrlPieces repl [] = [] from rfl, List.append_nil]
  | succ n ih =>
    intro s
    cases s with
    | nil => rfl
    | cons c rest =>
      show (match matchUrlAt (c :: rest) with
            | some (m, rest2) => repl m ++ subUrlsGo repl n rest2
            | none => c :: subUrlsGo repl n rest) =
        applyUrlPieces repl (scanUrlPieces (n + 1) (c :: rest))
      cases hm : matchUrlAt (c :: rest) with
      | some pr =>
        obtain ⟨m, rest2⟩ := pr
        simp only [scanUrlPieces, hm, applyUrlPieces, ih]
      | none =>
        simp only [scanUrlPieces, hm, applyUrlPieces, ih]
        rfl

end Bot

namespace Bot

/-- C9: confirmed.  On text containing two URLs, a shortener that raises on
the first URL and succeeds on the second leaves the first URL verbatim while
the second is still rewritten to `domain/code`; the rewrite is a total
function (no exception escapes: `replace_url` catches the per-URL failure).
-/
theorem shorten_urls_per_url_failure_isolated
    (f : String → Except String String) (e sc : String)
    (h1 : f "http://a.com" = Except.error e)
    (h2 : f "https://b.org" = Except.ok sc) :
    shorten_urls_in_text (some f) "http://localhost:8080"
        "see http://a.com and https://b.org end" =
      "see http://a.com and http://localhost:8080/" ++ sc ++ " end" := by
  show String.mk (subUrlsGo (replace_url f "http://localhost:8080")
      ("see http://a.com and https://b.org end".toList.length)
      ("see http://a.com and https://b.org end".toList)) = _
  rw [subUrlsGo_eq_apply]
  have hscan : scanUrlPieces
      ("see http://a.com and https://b.org end".toList.length)
      ("see http://a.com and https://b.org end".toList) =
      [.lit ['s'], .lit ['e'], .lit ['e'], .lit [' '],
       .url ['h', 't', 't', 'p', ':', '/', '/', 'a', '.', 'c', 'o', 'm'],
       .lit [' '], .lit ['a'], .lit ['n'], .lit ['d'], .lit [' '],
       .url ['h', 't', 't', 'p', 's', ':', '/', '/', 'b', '.', 'o', 'r', 'g'],
       .lit [' '], .lit ['e'], .lit ['n'], .lit ['d']] := by decide
  rw [hscan]
  simp only [applyUrlPieces, replace_url]
  rw [show String.mk ['h', 't', 't', 'p', ':', '/', '/', 'a', '.', 'c', 'o', 'm'] =
    "http://a.com" from rfl]
  rw [show String.mk ['h', 't', 't', 'p', 's', ':', '/', '/', 'b', '.', 'o', 'r', 'g'] =
    "https://b.org" from rfl]
  rw [h1, h2]
  rfl

/-- Witness for C9: a concrete shortener failing exactly on the first URL. -/
theorem shorten_urls_per_url_failure_isolated_witness :
    shorten_urls_in_text
        (some (fun u => if u = "http://a.com" then Except.error "service down"
          else Except.ok "Ab12"))
        "http://localhost:8080" "see http://a.com and https://b.org end" =
      "see http://a.com and http://localhost:8080/" ++ "Ab12" ++ " end" :=
  shorten_urls_per_url_failure_isolated
    (fun u => if u = "http://a.com" then Except.error "service down"
      else Except.ok "Ab12")
    "service down" "Ab12" (by simp) (by simp)

end Bot

namespace Bot

/-- Case-insensitive prefix test (the `re.IGNORECASE` flag of the media
patterns). -/
def ciPrefixOf : List Char → List Char → Bool
  | [], _ => true
  | _ :: _, [] => false
  | a :: as, b :: bs => (a.toLower == b.toLower) && ciPrefixOf as bs

/-- The quote class `["']` of the media patterns. -/
def isQuote (c : Char) : Bool := c == '"' || c == Char.ofNat 39

/-- Trying to match `ATTR=["']([^"'>]+)["']` at the head of `l`
(`attr` is `src` or `poster`); returns the captured group. -/
def attrValueAt (attr : List Char) (l : List Char) : Option (List Char) :=
  if ciPrefixOf (attr ++ ['=']) l then
    match l.drop (attr.length + 1) with
    | [] => none
    | q :: rest =>
      if isQuote q then
        let v := rest.takeWhile fun c => !(isQuote c || c == '>')
        if v ≠ [] then
          match rest.drop v.length with
          | q2 :: _ => if isQuote q2 then some v else none
          | [] => none
        else none
      else none
  else none

/-- The backtracking of the greedy `[^>]+` before the attribute: try every
start position from 1 (the quantifier demands at least one character)
rightward through `pre`, preferring the rightmost success, which is the
match the greedy quantifier settles on. -/
def lastAttrValueGo (attr : List Char) : List Char → Option (List Char)
  | [] => none
  | _ :: rest =>
    match lastAttrValueGo attr rest with
    | some v => some v
    | none => attrValueAt attr rest

/-- Matching `<TAG[^>]+ATTR=["']([^"'>]+)["'][^>]*>` (case-insensitive) at
the head of `s`.  Every component of the pattern other than the final
literal `>` excludes `>`, so a successful match extends exactly to the
first `>` after the opening tag; the trailing `[^>]*>` always succeeds
within that span.  Returns the captured group and the input after the
match. -/
def matchTagAttrAt (tag attr : List Char) (s : List Char) :
    Option (List Char × List Char) :=
  if ciPrefixOf ('<' :: tag) s then
    let afterTag := s.drop (tag.length + 1)
    let pre := afterTag.takeWhile fun c => !(c == '>')
    if pre.length = afterTag.length then none
    else
      match lastAttrValueGo attr pre with
      | some v => some (v, afterTag.drop (pre.length + 1))
      | none => none
  else none

/-- `re.findall` for one media pattern: leftmost, non-overlapping matches,
returning the capture of each (`fuel` bounds the scan; the input length
suffices). -/
def findallTagAttr (tag attr : List Char) : Nat → List Char → List (List Char)
  | 0, _ => []
  | _ + 1, [] => []
  | fuel + 1, c :: rest =>
    match matchTagAttrAt tag attr (c :: rest) with
    | some (v, rest2) => v :: findallTagAttr tag attr fuel rest2
    | none => findallTagAttr tag attr fuel rest

/-- `RSSDiscordBot._extract_media_urls`: all `img src` captures, then all
`video src` captures, then all `video poster` captures. -/
def extract_media_urls (html_content : String) : List String :=
  let l := html_content.toList
  let media_urls := (findallTagAttr "img".toList "src".toList l.length l).map
    String.mk
  let video_urls := (findallTagAttr "video".toList "src".toList l.length l).map
    String.mk
  let poster_urls :=
    (findallTagAttr "video".toList "poster".toList l.length l).map String.mk
  media_urls ++ (video_urls ++ poster_urls)

end Bot

namespace Bot

/-- C7 counterexample: the three patterns are scanned in separate passes and
concatenated per kind, so a video tag preceding an img tag still yields the
img capture first — the result is not in interleaved document order. -/
theorem extract_media_urls_not_document_order :
    extract_media_urls "<video src=\"b.mp4\"></video><img src=\"a.png\">" =
        ["a.png", "b.mp4"] ∧
      extract_media_urls "<video src=\"b.mp4\"></video><img src=\"a.png\">" ≠
        ["b.mp4", "a.png"] := by
  decide

/-- C7 (amended): extraction returns all `img src` captures in document
order, then all `video src` captures, then all `video poster` captures —
grouped by kind, not interleaved across kinds — and without deduplication.
On the spec's example the kinds already occur in that order, so the result
is exactly `["a.png", "b.mp4", "c.jpg"]`. -/
theorem extract_media_urls_grouped_by_kind :
    extract_media_urls "<img src=\"a.png\"><video src=\"b.mp4\" poster=\"c.jpg\">" =
        ["a.png", "b.mp4", "c.jpg"] ∧
      extract_media_urls "<img src=\"a.png\"><img src=\"a.png\">" =
        ["a.png", "a.png"] ∧
      extract_media_urls "<video src=\"b.mp4\"></video><img src=\"a.png\">" =
        ["a.png", "b.mp4"] := by
  decide

end Bot
